import Mathlib

/-!
Shallow embedding of `src/baselines/01_foote/run_foote.py` (Foote novelty
boundary detection over the jazz structure dataset) together with the parts of
the repository's `foote` module that the script calls.  Real-valued samples are
modelled as rationals; the genuinely transcendental ingredients (the Euclidean
vector norm inside the cosine similarity, the Gaussian weight of the
checkerboard kernel) and the external libraries (librosa's `chroma_cens`,
`mir_eval`'s F-measure, `np.load`) are abstract function parameters, so every
theorem below holds for all of their interpretations.
-/

/-- A feature matrix: list of rows (feature dimensions); columns are
time frames, mirroring the `F × T` numpy layout. -/
abbrev Mat := List (List ℚ)

/-- The two feature arrays read from the `.npz` feature file by `analysis`
(`features['f_pitch']`, `features['f_mfcc']`). -/
structure Features where
  f_pitch : Mat
  f_mfcc : Mat
deriving DecidableEq

/-- Errors of the pipeline, following the spec's taxonomy plus a loading
failure for `np.load` in `main`. -/
inductive FooteErr where
  | parameterError
  | invalidInputError
  | loadError
deriving DecidableEq

/-- `sliceEveryAux d k l` keeps the elements of `l` whose position is
`k, k + d, k + 2d, …` (the countdown `k` says how many elements are still to be
skipped before the next kept one). -/
def sliceEveryAux (d : Nat) : Nat → List α → List α
  | _, [] => []
  | 0, x :: xs => x :: sliceEveryAux d (d - 1) xs
  | k + 1, _ :: xs => sliceEveryAux d k xs

/-- Numpy's stride slicing `x[::d]`: every `d`-th element, the first one always
kept (lines 61 and 70 of `run_foote.py` apply it along the time axis). -/
def sliceEvery (d : Nat) (l : List α) : List α :=
  sliceEveryAux d 0 l

/-- Modelled from the spec: one row of `foote.smooth_features`, a centered
moving average of width `w` that shrinks to the available window at the
sequence edges instead of padding. -/
def movingAvgRow (w : Nat) (r : List ℚ) : List ℚ :=
  (List.range r.length).map fun t =>
    let lo := t - (w - 1) / 2
    let hi := min (r.length - 1) (t + w / 2)
    let win := (r.drop lo).take (hi + 1 - lo)
    win.sum / (win.length : ℚ)

/-- Modelled from the spec: `foote.smooth_features` (not under `src/`), the
temporal smoothing stage applied to each feature dimension. -/
def smooth_features (w : Nat) (X : Mat) : Mat :=
  X.map (movingAvgRow w)

/-- Inner product of two frame vectors. -/
def dotProd (x y : List ℚ) : ℚ :=
  ((x.zip y).map fun p => p.1 * p.2).sum

/-- Modelled from the spec: cosine similarity of two frames with the explicit
zero-norm degeneracy rule (similarity 0, not NaN).  The Euclidean norm is the
abstract parameter `nrm` since square roots leave ℚ. -/
def cosSim (nrm : List ℚ → ℚ) (x y : List ℚ) : ℚ :=
  if nrm x = 0 ∨ nrm y = 0 then 0 else dotProd x y / (nrm x * nrm y)

/-- Modelled from the spec: `foote.compute_ssm` (not under `src/`): the square
pairwise similarity matrix of the frames (columns) of a feature matrix. -/
def compute_ssm (nrm : List ℚ → ℚ) (X : Mat) : Mat :=
  let frames := X.transpose
  frames.map fun fi => frames.map fun fj => cosSim nrm fi fj

/-- Checkerboard sign with the spec's convention `sign 0 = +1`. -/
def sgn (x : ℤ) : ℚ :=
  if x < 0 then -1 else 1

/-- The raw (2M+1)×(2M+1) checkerboard kernel before mean removal: entry at
grid point `(x, y) ∈ [−M, M]²` is `sgn x * sgn y * gauss x y`, with `gauss` the
abstract Gaussian weight `exp (-(x² + y²) / (2σ²))`. -/
def kernelRaw (gauss : ℤ → ℤ → ℚ) (M : Nat) : Mat :=
  (List.range (2 * M + 1)).map fun i : ℕ =>
    (List.range (2 * M + 1)).map fun j : ℕ =>
      sgn ((i : ℤ) - (M : ℤ)) * sgn ((j : ℤ) - (M : ℤ)) *
        gauss ((i : ℤ) - (M : ℤ)) ((j : ℤ) - (M : ℤ))

/-- Sum of all entries of a matrix. -/
def matSum (A : Mat) : ℚ :=
  (A.map List.sum).sum

/-- The zero-mean checkerboard kernel: the raw kernel shifted by its mean so
that the entries sum to ≈ 0 (spec §4.2). -/
def kernelZeroMean (gauss : ℤ → ℤ → ℚ) (M : Nat) : Mat :=
  let K := kernelRaw gauss M
  let μ := matSum K / (((2 * M + 1) * (2 * M + 1) : Nat) : ℚ)
  K.map fun row => row.map fun v => v - μ

/-- Modelled from the spec: `foote.compute_kernel_checkerboard_gaussian`
(not under `src/`): validates `M ≥ 1` and `σ² > 0` (ParameterError otherwise)
and returns the zero-mean Gaussian checkerboard kernel of size `2M+1`. -/
def compute_kernel_checkerboard_gaussian (gauss : ℤ → ℤ → ℚ) (M : Nat)
    (var : ℚ) : Except FooteErr Mat :=
  if M < 1 ∨ var ≤ 0 then .error .parameterError
  else .ok (kernelZeroMean gauss M)

/-- Modelled from the spec: the generator's default variance used when
`analysis` calls it with only the kernel size; the interface types the
variance as `float > 0`, so the default is modelled as the positive value 1. -/
def defaultVar : ℚ := 1

/-- The (2M+1)×(2M+1) sub-block of the SSM centered at frame `(n, n)`. -/
def subblock (S : Mat) (n M : Nat) : Mat :=
  ((S.drop (n - M)).take (2 * M + 1)).map fun r =>
    (r.drop (n - M)).take (2 * M + 1)

/-- Elementwise product-sum (correlation) of the kernel with a sub-block. -/
def corrSum (K B : Mat) : ℚ :=
  ((K.zip B).map fun p => dotProd p.1 p.2).sum

/-- Modelled from the spec: `foote.compute_novelty_SSM` (not under `src/`).
For each valid center `n` with `M ≤ n < T − M` the novelty is the correlation
of the kernel with the SSM sub-block at `(n, n)`.  With `exclude = true` the
overhanging frames are omitted entirely (curve length `T − 2M`, entry `i`
belonging to frame `i + M`); with `exclude = false` they are set to 0. -/
def compute_novelty_SSM (S K : Mat) (exclude : Bool) : List ℚ :=
  let T := S.length
  let M := K.length / 2
  if exclude then
    (List.range (T - 2 * M)).map fun i => corrSum K (subblock S (i + M) M)
  else
    (List.range T).map fun n =>
      if M ≤ n ∧ n + M < T then corrSum K (subblock S n M) else 0

/-- Value of the novelty curve at index `i` (0 outside the range). -/
def novAt (nov : List ℚ) (i : Nat) : ℚ :=
  nov.getD i 0

/-- Strict local maximum test at an interior index of the novelty curve. -/
def isLocalMax (nov : List ℚ) (i : Nat) : Bool :=
  decide (0 < i) && decide (i + 1 < nov.length) &&
    decide (novAt nov (i - 1) < novAt nov i) &&
    decide (novAt nov (i + 1) < novAt nov i)

/-- Scan retained candidates left to right keeping a current peak `cur`: a
following candidate closer than `d` keeps only the one with the larger novelty
value, otherwise `cur` is emitted and the scan continues. -/
def pruneLoop (d : Nat) (nov : List ℚ) (cur : Nat) : List Nat → List Nat
  | [] => [cur]
  | j :: rest =>
    if j - cur < d then
      if novAt nov cur < novAt nov j then pruneLoop d nov j rest
      else pruneLoop d nov cur rest
    else cur :: pruneLoop d nov j rest

/-- Minimum-distance pruning of the candidate list (spec §4.5). -/
def pruneClose (d : Nat) (nov : List ℚ) : List Nat → List Nat
  | [] => []
  | i :: rest => pruneLoop d nov i rest

/-- Modelled from the spec: `foote.peak_picking` (not under `src/`): strict
local maxima of the novelty curve that clear the data-derived threshold
`thr nov` (the exact statistic is a configuration choice, so `thr` is
abstract), pruned to the minimum distance `d`. -/
def peak_picking (thr : List ℚ → ℚ) (d : Nat) (nov : List ℚ) : List Nat :=
  pruneClose d nov
    ((List.range nov.length).filter fun i =>
      isLocalMax nov i && decide (thr nov ≤ novAt nov i))

/-- `np.sort` on an index array (line 84–85 of `run_foote.py`). -/
def npSort (l : List Nat) : List Nat :=
  List.insertionSort (· ≤ ·) l

/-- The abstract ingredients `analysis` closes over: the external
`librosa.feature.chroma_cens` (win_len_smooth, pitch features), the Euclidean
norm, the Gaussian weight, and the peak-picking threshold statistic and
minimum distance defaults of `foote.peak_picking`. -/
structure Config where
  chromaCens : Nat → Mat → Mat
  nrm : List ℚ → ℚ
  gauss : ℚ → ℤ → ℤ → ℚ
  thr : List ℚ → ℚ
  minDist : Nat

/-- The six values returned by `analysis`. -/
structure AnalysisResult where
  ssm_f_cens : Mat
  ssm_f_mfcc : Mat
  nc_cens : List ℚ
  nc_mfcc : List ℚ
  boundaries_cens : List Nat
  boundaries_mfcc : List Nat
deriving DecidableEq

/-- `analysis(features, params_cens, kernel_size)` from `run_foote.py`
lines 22–87: CENS features via `chroma_cens` then time downsampling; MFCC
features smoothed, first two rows dropped, then downsampled; SSMs; the
Gaussian checkerboard kernel (an error there propagates); novelty curves with
boundary frames excluded; sorted peak lists. -/
def analysis (cfg : Config) (features : Features) (params_cens : Nat × Nat)
    (kernel_size : Nat) : Except FooteErr AnalysisResult :=
  let f_pitch := features.f_pitch
  let f_mfcc := features.f_mfcc
  let cur_f_cens := cfg.chromaCens params_cens.1 f_pitch
  let cur_f_cens := cur_f_cens.map (sliceEvery params_cens.2)
  let cur_f_mfcc := smooth_features params_cens.1 f_mfcc
  let cur_f_mfcc := (cur_f_mfcc.drop 2).map (sliceEvery params_cens.2)
  let ssm_f_cens := compute_ssm cfg.nrm cur_f_cens
  let ssm_f_mfcc := compute_ssm cfg.nrm cur_f_mfcc
  match compute_kernel_checkerboard_gaussian (cfg.gauss defaultVar) kernel_size
      defaultVar with
  | .error e => .error e
  | .ok G =>
    let nc_cens := compute_novelty_SSM ssm_f_cens G true
    let nc_mfcc := compute_novelty_SSM ssm_f_mfcc G true
    let boundaries_cens := npSort (peak_picking cfg.thr cfg.minDist nc_cens)
    let boundaries_mfcc := npSort (peak_picking cfg.thr cfg.minDist nc_mfcc)
    .ok ⟨ssm_f_cens, ssm_f_mfcc, nc_cens, nc_mfcc, boundaries_cens,
      boundaries_mfcc⟩

/-- One track of the dataset: the reference boundary annotations in seconds
(`utils.get_boundaries` is outside the analysed script, so only the value it
produces is kept). -/
structure Track where
  boundaries_ref : List ℚ
deriving DecidableEq

/-- One row of the evaluation CSV: the six F/P/R scores from `evaluation`
plus the `param` and `kernel_size` fields added by `main`
(lines 167–174 of `run_foote.py`). -/
structure EvalRow where
  F_cens : ℚ
  P_cens : ℚ
  R_cens : ℚ
  F_mfcc : ℚ
  P_mfcc : ℚ
  R_mfcc : ℚ
  param : Nat × Nat
  kernel_size : Nat
deriving DecidableEq

/-- `evaluation(boundaries_cens, boundaries_mfcc, boundaries_ref, win_length)`
from `run_foote.py` lines 90–120: two calls to `mir_eval.onset.f_measure`
(abstract parameter `fMeasure`, returning `(F, P, R)`). -/
def evaluation (fMeasure : List ℚ → List ℚ → ℚ → ℚ × ℚ × ℚ)
    (boundaries_cens boundaries_mfcc boundaries_ref : List ℚ)
    (win_length : ℚ) : (ℚ × ℚ × ℚ) × (ℚ × ℚ × ℚ) :=
  (fMeasure boundaries_ref boundaries_cens win_length,
   fMeasure boundaries_ref boundaries_mfcc win_length)

/-- `feature_rate = 10` (line 132 of `run_foote.py`). -/
def feature_rate : ℚ := 10

/-- The kernel size grid of `main` (line 143). -/
def kernel_sizes : List Nat := [20, 30, 40, 50]

/-- The smoothing/downsampling parameter grid of `main` (line 133). -/
def params_cens_list : List (Nat × Nat) := [(9, 2), (9, 4), (21, 5)]

/-- The frame-index → seconds conversion of `main` (lines 163–164):
`boundaries / (feature_rate / cur_params_cens[1])`.  No index offset is
added to the raw boundary index. -/
def framesToSeconds (d : Nat) (b : Nat) : ℚ :=
  (b : ℚ) / (feature_rate / (d : ℚ))

/-- The collaborators `main` closes over: the analysis configuration, the
external F-measure, and `np.load` of a track's feature file (which may fail,
modelled as an `Except`). -/
structure MainEnv where
  cfg : Config
  fMeasure : List ℚ → List ℚ → ℚ → ℚ × ℚ × ℚ
  load : Track → Except FooteErr Features

/-- The body of `main`'s innermost loop for one
`(kernel_size, track, params_cens)` combination: load the features, run
`analysis`, convert the boundary indices to seconds, and build the two
evaluation rows (window lengths 0.5 and 3).  Any error propagates. -/
def evalCombo (env : MainEnv) (k : Nat) (t : Track) (p : Nat × Nat) :
    Except FooteErr (EvalRow × EvalRow) :=
  match env.load t with
  | .error e => .error e
  | .ok features =>
    match analysis env.cfg features p k with
    | .error e => .error e
    | .ok r =>
      let bc := r.boundaries_cens.map (framesToSeconds p.2)
      let bm := r.boundaries_mfcc.map (framesToSeconds p.2)
      let e05 := evaluation env.fMeasure bc bm t.boundaries_ref (1 / 2)
      let e3 := evaluation env.fMeasure bc bm t.boundaries_ref 3
      .ok (⟨e05.1.1, e05.1.2.1, e05.1.2.2, e05.2.1, e05.2.2.1, e05.2.2.2,
            p, k⟩,
           ⟨e3.1.1, e3.1.2.1, e3.1.2.2, e3.2.1, e3.2.2.1, e3.2.2.2, p, k⟩)

/-- The iteration order of `main`'s nested loops: kernel sizes outermost,
then tracks, then parameter settings (lines 143–158).  The feature load is
repeated per combination, which is harmless since it is modelled pure. -/
def combos (tracks : List Track) : List (Nat × Track × (Nat × Nat)) :=
  kernel_sizes.flatMap fun k =>
    tracks.flatMap fun t =>
      params_cens_list.map fun p => (k, t, p)

/-- Run every combination in order, stopping at (and propagating) the first
error, as the un-guarded loop body of `main` does. -/
def evalAll (env : MainEnv) :
    List (Nat × Track × (Nat × Nat)) → Except FooteErr (List (EvalRow × EvalRow))
  | [] => .ok []
  | c :: cs =>
    match evalCombo env c.1 c.2.1 c.2.2 with
    | .error e => .error e
    | .ok r =>
      match evalAll env cs with
      | .error e => .error e
      | .ok rs => .ok (r :: rs)

namespace RunFoote

/-- `main` from `run_foote.py` lines 123–187: on success the two CSV row
lists (window lengths 0.5 and 3.0) are written; an uncaught error anywhere in
the loops aborts the run before either `to_csv` call, so nothing is written. -/
def main (env : MainEnv) (tracks : List Track) :
    Except FooteErr (List EvalRow × List EvalRow) :=
  match evalAll env (combos tracks) with
  | .error e => .error e
  | .ok rs => .ok (rs.map Prod.fst, rs.map Prod.snd)

end RunFoote

/-- `true` exactly on errors (a run that raised, wrote no CSV). -/
def isErr : Except FooteErr α → Bool
  | .error _ => true
  | .ok _ => false

/-- A concrete interpretation of the abstract ingredients, for evaluating the
theorems on explicit inputs. -/
def cfgTest : Config :=
  { chromaCens := fun _ X => X
    nrm := fun _ => 1
    gauss := fun _ _ _ => 1
    thr := fun _ => 0
    minDist := 0 }

/-- A tiny concrete feature file. -/
def featTest : Features :=
  { f_pitch := [[1, 0], [0, 1]]
    f_mfcc := [[1, 2], [2, 1], [3, 3]] }

/-- The statements of `analysis` with the store of input arrays threaded
explicitly: every numpy operation in the source returns a fresh array (there
is no in-place assignment or `out=` argument in `analysis`), so each step is
a pure value and the store is passed along unchanged. -/
def analysisSt (cfg : Config) (features : Features) (params_cens : Nat × Nat)
    (kernel_size : Nat) : Except FooteErr AnalysisResult × Features :=
  let (f_pitch, s) := (features.f_pitch, features)
  let (f_mfcc, s) := (s.f_mfcc, s)
  let (cur_f_cens, s) := (cfg.chromaCens params_cens.1 f_pitch, s)
  let (cur_f_cens, s) := (cur_f_cens.map (sliceEvery params_cens.2), s)
  let (cur_f_mfcc, s) := (smooth_features params_cens.1 f_mfcc, s)
  let (cur_f_mfcc, s) := ((cur_f_mfcc.drop 2).map (sliceEvery params_cens.2), s)
  let (ssm_f_cens, s) := (compute_ssm cfg.nrm cur_f_cens, s)
  let (ssm_f_mfcc, s) := (compute_ssm cfg.nrm cur_f_mfcc, s)
  match compute_kernel_checkerboard_gaussian (cfg.gauss defaultVar) kernel_size
      defaultVar with
  | .error e => (.error e, s)
  | .ok G =>
    let (nc_cens, s) := (compute_novelty_SSM ssm_f_cens G true, s)
    let (nc_mfcc, s) := (compute_novelty_SSM ssm_f_mfcc G true, s)
    let (boundaries_cens, s) := (npSort (peak_picking cfg.thr cfg.minDist nc_cens), s)
    let (boundaries_mfcc, s) := (npSort (peak_picking cfg.thr cfg.minDist nc_mfcc), s)
    (.ok ⟨ssm_f_cens, ssm_f_mfcc, nc_cens, nc_mfcc, boundaries_cens,
      boundaries_mfcc⟩, s)

/-- The concrete result of `analysis` on the test fixture. -/
def rTest : AnalysisResult :=
  ((analysis cfgTest featTest (1, 1) 1).toOption).getD ⟨[], [], [], [], [], []⟩

/-- A track whose reference annotation list is empty. -/
def trackTest : Track := ⟨[]⟩

/-- A `main` environment whose loads all succeed. -/
def envTest : MainEnv :=
  ⟨cfgTest, fun _ _ _ => (0, 0, 0), fun _ => .ok featTest⟩

/-- A `main` environment whose feature loads fail. -/
def envFail : MainEnv :=
  ⟨cfgTest, fun _ _ _ => (0, 0, 0), fun _ => .error .loadError⟩

/-- The concrete row lists produced by `main` on the test fixture. -/
def rowsTest : List EvalRow × List EvalRow :=
  (RunFoote.main envTest [trackTest]).toOption.getD ([], [])

theorem sliceEveryAux_getElem? (d : Nat) (hd : 1 ≤ d) :
    ∀ (l : List α) (k i : Nat), (sliceEveryAux d k l)[i]? = l[k + d * i]?
  | [], k, i => by simp [sliceEveryAux]
  | x :: xs, 0, 0 => by simp [sliceEveryAux]
  | x :: xs, 0, i + 1 => by
    have h1 : 0 + d * (i + 1) = (d - 1 + d * i) + 1 := by
      rw [Nat.mul_succ]; omega
    rw [sliceEveryAux, List.getElem?_cons_succ, h1, List.getElem?_cons_succ,
      sliceEveryAux_getElem? d hd xs (d - 1) i]
  | x :: xs, k + 1, i => by
    have h1 : (k + 1) + d * i = (k + d * i) + 1 := by omega
    rw [sliceEveryAux, h1, List.getElem?_cons_succ,
      sliceEveryAux_getElem? d hd xs k i]

theorem sliceEveryAux_length (d : Nat) (hd : 1 ≤ d) :
    ∀ (l : List α) (k : Nat),
      (sliceEveryAux d k l).length = (l.length - k + d - 1) / d
  | [], k => by
    simp only [sliceEveryAux, List.length_nil]
    symm
    apply Nat.div_eq_of_lt
    omega
  | x :: xs, 0 => by
    rw [sliceEveryAux, List.length_cons, sliceEveryAux_length d hd xs (d - 1)]
    simp only [List.length_cons, Nat.sub_zero]
    have e2 : xs.length + 1 + d - 1 = xs.length + d := by omega
    rw [e2, Nat.add_div_right _ (by omega : 0 < d)]
    rcases Nat.lt_or_ge xs.length (d - 1) with h | h
    · have e1 : xs.length - (d - 1) + d - 1 = d - 1 := by omega
      rw [e1, Nat.div_eq_of_lt (by omega), Nat.div_eq_of_lt (by omega)]
    · have e1 : xs.length - (d - 1) + d - 1 = xs.length := by omega
      rw [e1]
  | x :: xs, k + 1 => by
    rw [sliceEveryAux, sliceEveryAux_length d hd xs k]
    simp only [List.length_cons]
    congr 2
    omega

theorem sliceEvery_length (d : Nat) (hd : 1 ≤ d) (l : List α) :
    (sliceEvery d l).length = (l.length + d - 1) / d := by
  rw [sliceEvery, sliceEveryAux_length d hd l 0, Nat.sub_zero]

/-- C3: the downsampling step `x[:, ::d]` of `analysis` keeps every `d`-th
frame, always including the first, and yields `ceil(T / d)` frames. -/
theorem C3_downsample_every_dth (d : Nat) (l : List ℚ) (hd : 1 ≤ d) :
    (sliceEvery d l).length = (l.length + d - 1) / d ∧
    (∀ i : Nat, (sliceEvery d l)[i]? = l[d * i]?) ∧
    (sliceEvery d l).head? = l.head? := by
  refine ⟨sliceEvery_length d hd l, fun i => ?_, ?_⟩
  · rw [sliceEvery, sliceEveryAux_getElem? d hd l 0 i, Nat.zero_add]
  · rw [List.head?_eq_getElem?, List.head?_eq_getElem?, sliceEvery,
      sliceEveryAux_getElem? d hd l 0 0]
    norm_num

/-- Witness for C3 at `d = 2` on a five-element sequence. -/
theorem C3_witness :
    (1 ≤ 2) ∧
    ((sliceEvery 2 [(1 : ℚ), 2, 3, 4, 5]).length = (5 + 2 - 1) / 2 ∧
      (∀ i : Nat, (sliceEvery 2 [(1 : ℚ), 2, 3, 4, 5])[i]? =
        [(1 : ℚ), 2, 3, 4, 5][2 * i]?) ∧
      (sliceEvery 2 [(1 : ℚ), 2, 3, 4, 5]).head? = [(1 : ℚ), 2, 3, 4, 5].head?) := by
  refine ⟨by norm_num, ?_⟩
  have h := C3_downsample_every_dth 2 [(1 : ℚ), 2, 3, 4, 5] (by norm_num)
  simpa using h

theorem kernelZeroMean_length (gauss : ℤ → ℤ → ℚ) (M : Nat) :
    (kernelZeroMean gauss M).length = 2 * M + 1 := by
  unfold kernelZeroMean kernelRaw
  rw [List.length_map, List.length_map, List.length_range]

theorem kernelZeroMean_row_length (gauss : ℤ → ℤ → ℚ) (M : Nat) :
    ∀ row ∈ kernelZeroMean gauss M, row.length = 2 * M + 1 := by
  intro row hrow
  unfold kernelZeroMean kernelRaw at hrow
  simp only [List.mem_map, List.mem_range] at hrow
  obtain ⟨r, ⟨i, hi, rfl⟩, rfl⟩ := hrow
  rw [List.length_map, List.length_map, List.length_range]

/-- C4: every kernel size used by `main` is a valid half-width, the default
variance is positive, and the generator returns an odd square kernel of size
`2M+1` for valid arguments and a ParameterError otherwise. -/
theorem C4_kernel_contract :
    (∀ k ∈ kernel_sizes, 1 ≤ k) ∧ (0 : ℚ) < defaultVar ∧
    (∀ (gauss : ℤ → ℤ → ℚ) (M : Nat) (var : ℚ), 1 ≤ M → 0 < var →
      compute_kernel_checkerboard_gaussian gauss M var =
        .ok (kernelZeroMean gauss M) ∧
      (kernelZeroMean gauss M).length = 2 * M + 1 ∧
      ∀ row ∈ kernelZeroMean gauss M, row.length = 2 * M + 1) ∧
    (∀ (gauss : ℤ → ℤ → ℚ) (M : Nat) (var : ℚ), M < 1 ∨ var ≤ 0 →
      compute_kernel_checkerboard_gaussian gauss M var =
        .error .parameterError) := by
  refine ⟨by decide, by norm_num [defaultVar], ?_, ?_⟩
  · intro gauss M var hM hvar
    refine ⟨?_, kernelZeroMean_length gauss M, kernelZeroMean_row_length gauss M⟩
    rw [compute_kernel_checkerboard_gaussian, if_neg]
    push_neg
    exact ⟨by omega, by linarith⟩
  · intro gauss M var h
    rw [compute_kernel_checkerboard_gaussian, if_pos h]

/-- Witness for C4: the generator at half-width 20 (a kernel size `main`
uses) with the default variance, and at the invalid half-width 0. -/
theorem C4_witness :
    (compute_kernel_checkerboard_gaussian (fun _ _ => 1) 20 defaultVar =
        .ok (kernelZeroMean (fun _ _ => 1) 20) ∧
      (kernelZeroMean (fun _ _ => 1) 20).length = 2 * 20 + 1 ∧
      ∀ row ∈ kernelZeroMean (fun _ _ => 1) 20, row.length = 2 * 20 + 1) ∧
    compute_kernel_checkerboard_gaussian (fun _ _ => 1) 0 defaultVar =
      .error .parameterError :=
  ⟨C4_kernel_contract.2.2.1 (fun _ _ => 1) 20 defaultVar (by norm_num)
      (by norm_num [defaultVar]),
   C4_kernel_contract.2.2.2 (fun _ _ => 1) 0 defaultVar (Or.inl (by norm_num))⟩

/-- C1: the index→seconds conversion of `main` divides the raw boundary index
by the effective rate and applies no kernel half-width offset: with the
excluded-boundary novelty curve (whose entry `i` belongs to frame `i + M` and
whose length is `T − 2M`), index 0 at `kernel_size = 20`, downsampling 2 is
reported as 0 s where the spec's mapping gives `(0 + 20) / (10 / 2) = 4` s. -/
theorem C1_conversion_omits_offset :
    (∀ d b, framesToSeconds d b = (b : ℚ) / (feature_rate / (d : ℚ))) ∧
    (∀ S K : Mat,
      (compute_novelty_SSM S K true).length = S.length - 2 * (K.length / 2)) ∧
    framesToSeconds 2 0 = 0 ∧
    ((0 : ℚ) + 20) / (feature_rate / (2 : ℚ)) = 4 ∧
    framesToSeconds 2 0 ≠ ((0 : ℚ) + 20) / (feature_rate / (2 : ℚ)) := by
  refine ⟨fun d b => rfl, ?_, ?_, ?_, ?_⟩
  · intro S K
    simp [compute_novelty_SSM]
  · norm_num [framesToSeconds, feature_rate]
  · norm_num [feature_rate]
  · norm_num [framesToSeconds, feature_rate]

/-- C5: `analysis` is a pure function of its arguments: two invocations on
identical inputs and parameters return identical six-tuples. -/
theorem C5_determinism (cfg : Config) (f₁ f₂ : Features) (p₁ p₂ : Nat × Nat)
    (k₁ k₂ : Nat) (hf : f₁ = f₂) (hp : p₁ = p₂) (hk : k₁ = k₂) :
    analysis cfg f₁ p₁ k₁ = analysis cfg f₂ p₂ k₂ := by
  subst hf hp hk
  rfl

/-- Witness for C5 on the concrete test fixture. -/
theorem C5_witness :
    analysis cfgTest featTest (1, 1) 1 = analysis cfgTest featTest (1, 1) 1 :=
  C5_determinism cfgTest featTest featTest (1, 1) (1, 1) 1 1 rfl rfl rfl

/-- C7: the store of input feature arrays threaded through the statements of
`analysis` is returned unchanged (no in-place mutation), and the outputs are
the same values the pure `analysis` produces. -/
theorem C7_no_input_mutation (cfg : Config) (f : Features) (p : Nat × Nat)
    (k : Nat) :
    (analysisSt cfg f p k).2 = f ∧
    (analysisSt cfg f p k).1 = analysis cfg f p k := by
  constructor
  · rw [analysisSt]
    cases compute_kernel_checkerboard_gaussian (cfg.gauss defaultVar) k
      defaultVar <;> rfl
  · rw [analysisSt, analysis]
    cases compute_kernel_checkerboard_gaussian (cfg.gauss defaultVar) k
      defaultVar <;> rfl

theorem analysis_ok_spec {cfg : Config} {f : Features} {p : Nat × Nat}
    {k : Nat} {r : AnalysisResult} (h : analysis cfg f p k = .ok r) :
    ∃ G, compute_kernel_checkerboard_gaussian (cfg.gauss defaultVar) k
        defaultVar = .ok G ∧
      r.ssm_f_cens =
        compute_ssm cfg.nrm
          ((cfg.chromaCens p.1 f.f_pitch).map (sliceEvery p.2)) ∧
      r.ssm_f_mfcc =
        compute_ssm cfg.nrm
          (((smooth_features p.1 f.f_mfcc).drop 2).map (sliceEvery p.2)) ∧
      r.nc_cens = compute_novelty_SSM r.ssm_f_cens G true ∧
      r.nc_mfcc = compute_novelty_SSM r.ssm_f_mfcc G true ∧
      r.boundaries_cens = npSort (peak_picking cfg.thr cfg.minDist r.nc_cens) ∧
      r.boundaries_mfcc = npSort (peak_picking cfg.thr cfg.minDist r.nc_mfcc) := by
  rw [analysis] at h
  cases hG : compute_kernel_checkerboard_gaussian (cfg.gauss defaultVar) k
      defaultVar with
  | error e => rw [hG] at h; cases h
  | ok G =>
    rw [hG] at h
    injection h with h
    subst h
    exact ⟨G, rfl, rfl, rfl, rfl, rfl, rfl, rfl⟩

theorem pruneLoop_sublist (d : Nat) (nov : List ℚ) :
    ∀ (l : List Nat) (cur : Nat), List.Sublist (pruneLoop d nov cur l) (cur :: l)
  | [], cur => by simp [pruneLoop]
  | j :: rest, cur => by
    rw [pruneLoop]
    split
    · split
      · exact (pruneLoop_sublist d nov rest j).trans
          (List.sublist_cons_self cur (j :: rest))
      · exact (pruneLoop_sublist d nov rest cur).trans
          ((List.sublist_cons_self j rest).cons₂ cur)
    · exact (pruneLoop_sublist d nov rest j).cons₂ cur

theorem pruneClose_sublist (d : Nat) (nov : List ℚ) (l : List Nat) :
    List.Sublist (pruneClose d nov l) l := by
  cases l with
  | nil => simp [pruneClose]
  | cons i rest => exact pruneLoop_sublist d nov rest i

theorem peak_picking_sorted (thr : List ℚ → ℚ) (d : Nat) (nov : List ℚ) :
    List.Sorted (· < ·) (peak_picking thr d nov) := by
  have h1 : List.Sorted (· < ·) ((List.range nov.length).filter fun i =>
      isLocalMax nov i && decide (thr nov ≤ novAt nov i)) :=
    (List.sorted_lt_range nov.length).filter _
  exact h1.sublist (pruneClose_sublist d nov _)

theorem npSort_sorted_eq {l : List Nat} (h : List.Sorted (· ≤ ·) l) :
    npSort l = l :=
  List.Sorted.insertionSort_eq h

/-- C2: the boundary arrays returned by `analysis` are strictly ascending,
hence sorted with no duplicate frame indices; an empty array is an ordinary
output of the same code path, not an error (see the witness). -/
theorem C2_boundaries_sorted_nodup (cfg : Config) (f : Features)
    (p : Nat × Nat) (k : Nat) (r : AnalysisResult)
    (h : analysis cfg f p k = .ok r) :
    List.Sorted (· < ·) r.boundaries_cens ∧ r.boundaries_cens.Nodup ∧
    List.Sorted (· < ·) r.boundaries_mfcc ∧ r.boundaries_mfcc.Nodup := by
  obtain ⟨G, hG, _, _, _, _, hbc, hbm⟩ := analysis_ok_spec h
  rw [hbc, hbm,
    npSort_sorted_eq (peak_picking_sorted cfg.thr cfg.minDist _).le_of_lt,
    npSort_sorted_eq (peak_picking_sorted cfg.thr cfg.minDist _).le_of_lt]
  exact ⟨peak_picking_sorted _ _ _, (peak_picking_sorted _ _ _).nodup,
    peak_picking_sorted _ _ _, (peak_picking_sorted _ _ _).nodup⟩

/-- Witness for C2 on the concrete test fixture, whose boundary arrays are
in fact empty: a valid output, not an error. -/
theorem C2_witness :
    (analysis cfgTest featTest (1, 1) 1 = .ok rTest ∧
      rTest.boundaries_cens = [] ∧ rTest.boundaries_mfcc = []) ∧
    (List.Sorted (· < ·) rTest.boundaries_cens ∧ rTest.boundaries_cens.Nodup ∧
      List.Sorted (· < ·) rTest.boundaries_mfcc ∧
      rTest.boundaries_mfcc.Nodup) :=
  ⟨⟨rfl, rfl, rfl⟩,
    C2_boundaries_sorted_nodup cfgTest featTest (1, 1) 1 rTest rfl⟩

/-- C6: the stages of `analysis` compose in dependency order for both feature
types: smoothing, downsampling, SSM, kernel, novelty with excluded boundary
frames, peak picking; the boundary index arrays are returned to the caller. -/
theorem C6_pipeline_order (cfg : Config) (f : Features) (p : Nat × Nat)
    (k : Nat) (r : AnalysisResult) (h : analysis cfg f p k = .ok r) :
    ∃ G, compute_kernel_checkerboard_gaussian (cfg.gauss defaultVar) k
        defaultVar = .ok G ∧
      r.ssm_f_cens =
        compute_ssm cfg.nrm
          ((cfg.chromaCens p.1 f.f_pitch).map (sliceEvery p.2)) ∧
      r.ssm_f_mfcc =
        compute_ssm cfg.nrm
          (((smooth_features p.1 f.f_mfcc).drop 2).map (sliceEvery p.2)) ∧
      r.nc_cens = compute_novelty_SSM r.ssm_f_cens G true ∧
      r.nc_mfcc = compute_novelty_SSM r.ssm_f_mfcc G true ∧
      r.boundaries_cens = npSort (peak_picking cfg.thr cfg.minDist r.nc_cens) ∧
      r.boundaries_mfcc = npSort (peak_picking cfg.thr cfg.minDist r.nc_mfcc) :=
  analysis_ok_spec h

/-- Witness for C6 on the concrete test fixture. -/
theorem C6_witness :
    ∃ G, compute_kernel_checkerboard_gaussian (cfgTest.gauss defaultVar) 1
        defaultVar = .ok G ∧
      rTest.ssm_f_cens =
        compute_ssm cfgTest.nrm
          ((cfgTest.chromaCens 1 featTest.f_pitch).map (sliceEvery 1)) ∧
      rTest.ssm_f_mfcc =
        compute_ssm cfgTest.nrm
          (((smooth_features 1 featTest.f_mfcc).drop 2).map (sliceEvery 1)) ∧
      rTest.nc_cens = compute_novelty_SSM rTest.ssm_f_cens G true ∧
      rTest.nc_mfcc = compute_novelty_SSM rTest.ssm_f_mfcc G true ∧
      rTest.boundaries_cens =
        npSort (peak_picking cfgTest.thr cfgTest.minDist rTest.nc_cens) ∧
      rTest.boundaries_mfcc =
        npSort (peak_picking cfgTest.thr cfgTest.minDist rTest.nc_mfcc) :=
  C6_pipeline_order cfgTest featTest (1, 1) 1 rTest rfl

/-- C9: the MFCC matrix entering SSM construction lost its first two rows
(feature dimensions), while the CENS matrix kept all of its rows. -/
theorem C9_mfcc_drops_two_rows (cfg : Config) (f : Features) (p : Nat × Nat)
    (k : Nat) (r : AnalysisResult) (h : analysis cfg f p k = .ok r) :
    r.ssm_f_mfcc =
      compute_ssm cfg.nrm
        (((smooth_features p.1 f.f_mfcc).drop 2).map (sliceEvery p.2)) ∧
    (((smooth_features p.1 f.f_mfcc).drop 2).map (sliceEvery p.2)).length =
      f.f_mfcc.length - 2 ∧
    r.ssm_f_cens =
      compute_ssm cfg.nrm
        ((cfg.chromaCens p.1 f.f_pitch).map (sliceEvery p.2)) ∧
    ((cfg.chromaCens p.1 f.f_pitch).map (sliceEvery p.2)).length =
      (cfg.chromaCens p.1 f.f_pitch).length := by
  obtain ⟨G, hG, hsc, hsm, _, _, _, _⟩ := analysis_ok_spec h
  refine ⟨hsm, ?_, hsc, by rw [List.length_map]⟩
  rw [List.length_map, List.length_drop, smooth_features, List.length_map]

/-- Witness for C9 on the concrete test fixture (three MFCC rows, one left). -/
theorem C9_witness :
    rTest.ssm_f_mfcc =
      compute_ssm cfgTest.nrm
        (((smooth_features 1 featTest.f_mfcc).drop 2).map (sliceEvery 1)) ∧
    (((smooth_features 1 featTest.f_mfcc).drop 2).map (sliceEvery 1)).length =
      featTest.f_mfcc.length - 2 ∧
    rTest.ssm_f_cens =
      compute_ssm cfgTest.nrm
        ((cfgTest.chromaCens 1 featTest.f_pitch).map (sliceEvery 1)) ∧
    ((cfgTest.chromaCens 1 featTest.f_pitch).map (sliceEvery 1)).length =
      (cfgTest.chromaCens 1 featTest.f_pitch).length :=
  C9_mfcc_drops_two_rows cfgTest featTest (1, 1) 1 rTest rfl

theorem evalAll_isErr (env : MainEnv) :
    ∀ l : List (Nat × Track × (Nat × Nat)),
      (∃ c ∈ l, isErr (evalCombo env c.1 c.2.1 c.2.2) = true) →
      isErr (evalAll env l) = true := by
  intro l
  induction l with
  | nil => rintro ⟨c, hc, _⟩; cases hc
  | cons c cs ih =>
    rintro ⟨c', hc', herr⟩
    rw [evalAll]
    cases hec : evalCombo env c.1 c.2.1 c.2.2 with
    | error e => rfl
    | ok r =>
      rcases List.mem_cons.mp hc' with rfl | hmem
      · rw [hec] at herr; cases herr
      · have hcs := ih ⟨c', hmem, herr⟩
        cases hall : evalAll env cs with
        | error e => rfl
        | ok rs => rw [hall] at hcs; cases hcs

/-- C8: an error raised while loading or analysing any
(kernel size, track, parameter) combination aborts `main`: the run ends in
that error and no row lists (no CSV contents) are produced. -/
theorem C8_error_propagation (env : MainEnv) (tracks : List Track)
    (h : ∃ c ∈ combos tracks, isErr (evalCombo env c.1 c.2.1 c.2.2) = true) :
    isErr (RunFoote.main env tracks) = true ∧
    ∀ out, RunFoote.main env tracks ≠ Except.ok out := by
  have h1 := evalAll_isErr env (combos tracks) h
  have hm : isErr (RunFoote.main env tracks) = true := by
    rw [RunFoote.main]
    cases hall : evalAll env (combos tracks) with
    | error e => rfl
    | ok rs => rw [hall] at h1; cases h1
  refine ⟨hm, fun out hout => ?_⟩
  rw [hout] at hm
  cases hm

/-- Witness for C8: a single-track run whose feature load fails. -/
theorem C8_witness :
    ((20, trackTest, ((9 : Nat), (2 : Nat))) ∈ combos [trackTest] ∧
      isErr (evalCombo envFail 20 trackTest (9, 2)) = true) ∧
    isErr (RunFoote.main envFail [trackTest]) = true ∧
    ∀ out, RunFoote.main envFail [trackTest] ≠ Except.ok out := by
  have hmem : (20, trackTest, ((9 : Nat), (2 : Nat))) ∈ combos [trackTest] := by
    decide
  exact ⟨⟨hmem, rfl⟩,
    C8_error_propagation envFail [trackTest] ⟨(20, trackTest, (9, 2)), hmem, rfl⟩⟩

theorem evalCombo_ok_fields {env : MainEnv} {k : Nat} {t : Track}
    {p : Nat × Nat} {rr : EvalRow × EvalRow}
    (h : evalCombo env k t p = .ok rr) :
    rr.1.kernel_size = k ∧ rr.1.param = p ∧
    rr.2.kernel_size = k ∧ rr.2.param = p := by
  rw [evalCombo] at h
  split at h
  · cases h
  · split at h
    · cases h
    · injection h with h
      subst h
      exact ⟨rfl, rfl, rfl, rfl⟩

theorem evalAll_ok_forall₂ (env : MainEnv) :
    ∀ (l : List (Nat × Track × (Nat × Nat))) (rs : List (EvalRow × EvalRow)),
      evalAll env l = .ok rs →
      List.Forall₂ (fun c rr => evalCombo env c.1 c.2.1 c.2.2 = .ok rr) l rs := by
  intro l
  induction l with
  | nil =>
    intro rs h
    rw [evalAll] at h
    injection h with h
    subst h
    exact List.Forall₂.nil
  | cons c cs ih =>
    intro rs h
    rw [evalAll] at h
    split at h
    · cases h
    · split at h
      · cases h
      · injection h with h
        subst h
        refine List.Forall₂.cons ?_ (ih _ ?_) <;> assumption

theorem forall₂_countP (env : MainEnv) (k : Nat) (p : Nat × Nat) :
    ∀ (l : List (Nat × Track × (Nat × Nat))) (rs : List (EvalRow × EvalRow)),
      List.Forall₂ (fun c rr => evalCombo env c.1 c.2.1 c.2.2 = .ok rr) l rs →
      (rs.map Prod.fst).countP
          (fun r => decide (r.kernel_size = k) && decide (r.param = p)) =
        l.countP (fun c => decide (c.1 = k) && decide (c.2.2 = p)) ∧
      (rs.map Prod.snd).countP
          (fun r => decide (r.kernel_size = k) && decide (r.param = p)) =
        l.countP (fun c => decide (c.1 = k) && decide (c.2.2 = p)) := by
  intro l rs hf
  induction hf with
  | nil => simp
  | cons hc hf ih =>
    obtain ⟨h1, h2, h3, h4⟩ := evalCombo_ok_fields hc
    simp [List.map_cons, List.countP_cons, ih.1, ih.2, h1, h2, h3, h4]

theorem forall₂_mem_fields (env : MainEnv) :
    ∀ (l : List (Nat × Track × (Nat × Nat))) (rs : List (EvalRow × EvalRow)),
      List.Forall₂ (fun c rr => evalCombo env c.1 c.2.1 c.2.2 = .ok rr) l rs →
      (∀ c ∈ l, c.1 ∈ kernel_sizes ∧ c.2.2 ∈ params_cens_list) →
      ∀ rr ∈ rs, rr.1.kernel_size ∈ kernel_sizes ∧
        rr.1.param ∈ params_cens_list ∧
        rr.2.kernel_size ∈ kernel_sizes ∧ rr.2.param ∈ params_cens_list := by
  intro l rs hf
  induction hf with
  | nil => intro _ rr h; cases h
  | cons hc hf ih =>
    intro hl rr hrr
    rcases List.mem_cons.mp hrr with rfl | hmem
    · obtain ⟨h1, h2, h3, h4⟩ := evalCombo_ok_fields hc
      have hm := hl _ (List.mem_cons_self _ _)
      rw [h1, h2, h3, h4]
      exact ⟨hm.1, hm.2, hm.1, hm.2⟩
    · exact ih (fun c hc' => hl c (List.mem_cons_of_mem _ hc')) rr hmem

theorem mem_combos {tracks : List Track} {c : Nat × Track × (Nat × Nat)}
    (hc : c ∈ combos tracks) :
    c.1 ∈ kernel_sizes ∧ c.2.2 ∈ params_cens_list := by
  simp only [combos, List.mem_flatMap, List.mem_map] at hc
  obtain ⟨k, hk, hc⟩ := hc
  obtain ⟨t, ht, hc⟩ := hc
  obtain ⟨p, hp, rfl⟩ := hc
  exact ⟨hk, hp⟩

theorem countP_flatMap_const {α β : Type} (l : List α) (f : α → List β)
    (q : β → Bool) (m : Nat) (hf : ∀ t, (f t).countP q = m) :
    (l.flatMap f).countP q = l.length * m := by
  induction l with
  | nil => simp
  | cons t ts ih =>
    rw [List.flatMap_cons, List.countP_append, hf, ih, List.length_cons]
    ring

theorem countP_combos (tracks : List Track) (k : Nat) (p : Nat × Nat)
    (hk : k ∈ kernel_sizes) (hp : p ∈ params_cens_list) :
    (combos tracks).countP
      (fun c => decide (c.1 = k) && decide (c.2.2 = p)) = tracks.length := by
  have hblock : ∀ k' : Nat,
      (tracks.flatMap fun t =>
        params_cens_list.map fun p' => (k', t, p')).countP
        (fun c => decide (c.1 = k) && decide (c.2.2 = p)) =
      tracks.length *
        (if k' = k then
          params_cens_list.countP (fun p' => decide (p' = p)) else 0) := by
    intro k'
    apply countP_flatMap_const
    intro t
    by_cases hk' : k' = k
    · subst hk'
      simp [params_cens_list, List.countP_cons]
    · simp [params_cens_list, List.countP_cons, hk']
  have hsplit :
      (combos tracks).countP
        (fun c => decide (c.1 = k) && decide (c.2.2 = p)) =
      tracks.length *
          (if 20 = k then
            params_cens_list.countP (fun p' => decide (p' = p)) else 0) +
        (tracks.length *
          (if 30 = k then
            params_cens_list.countP (fun p' => decide (p' = p)) else 0) +
        (tracks.length *
          (if 40 = k then
            params_cens_list.countP (fun p' => decide (p' = p)) else 0) +
        tracks.length *
          (if 50 = k then
            params_cens_list.countP (fun p' => decide (p' = p)) else 0))) := by
    simp only [combos, kernel_sizes, List.flatMap_cons, List.flatMap_nil,
      List.append_nil, List.countP_append]
    rw [hblock 20, hblock 30, hblock 40, hblock 50]
  rw [hsplit]
  have hk4 : k = 20 ∨ k = 30 ∨ k = 40 ∨ k = 50 := by
    simpa [kernel_sizes] using hk
  have hp3 : p = (9, 2) ∨ p = (9, 4) ∨ p = (21, 5) := by
    simpa [params_cens_list] using hp
  rcases hk4 with rfl | rfl | rfl | rfl <;>
    rcases hp3 with rfl | rfl | rfl <;>
      simp [params_cens_list]

theorem combos_length (tracks : List Track) :
    (combos tracks).length =
      kernel_sizes.length * params_cens_list.length * tracks.length := by
  have hb : ∀ k' : Nat,
      (tracks.flatMap fun t =>
        params_cens_list.map fun p' => (k', t, p')).length =
      3 * tracks.length := by
    intro k'
    induction tracks with
    | nil => simp
    | cons t ts ih =>
      rw [List.flatMap_cons, List.length_append, ih, List.length_map,
        List.length_cons]
      simp only [params_cens_list, List.length_cons, List.length_nil]
      omega
  simp only [combos, kernel_sizes, List.flatMap_cons, List.flatMap_nil,
    List.append_nil, List.length_append]
  rw [hb 20, hb 30, hb 40, hb 50]
  simp only [kernel_sizes, params_cens_list, List.length_cons,
    List.length_nil]
  omega

/-- C10: a successful run of `main` yields, for each of the two window
lengths, exactly one evaluation row per (kernel_size, params_cens)
combination per track, with kernel_size from {20, 30, 40, 50} and params
from {(9,2), (9,4), (21,5)}, each row recording the param and kernel size
used. -/
theorem C10_one_row_per_combination (env : MainEnv) (tracks : List Track)
    (rows05 rows3 : List EvalRow)
    (h : RunFoote.main env tracks = .ok (rows05, rows3)) :
    rows05.length =
      kernel_sizes.length * params_cens_list.length * tracks.length ∧
    rows3.length =
      kernel_sizes.length * params_cens_list.length * tracks.length ∧
    (∀ k ∈ kernel_sizes, ∀ p ∈ params_cens_list,
      rows05.countP
        (fun r => decide (r.kernel_size = k) && decide (r.param = p)) =
        tracks.length ∧
      rows3.countP
        (fun r => decide (r.kernel_size = k) && decide (r.param = p)) =
        tracks.length) ∧
    (∀ r ∈ rows05, r.kernel_size ∈ kernel_sizes ∧
      r.param ∈ params_cens_list) ∧
    (∀ r ∈ rows3, r.kernel_size ∈ kernel_sizes ∧
      r.param ∈ params_cens_list) := by
  rw [RunFoote.main] at h
  split at h
  · cases h
  · rename_i rs hall
    injection h with h
    rw [Prod.mk.injEq] at h
    obtain ⟨h05, h3⟩ := h
    subst h05 h3
    have hf := evalAll_ok_forall₂ env (combos tracks) rs hall
    have hlen : rs.length = (combos tracks).length := hf.length_eq.symm
    refine ⟨?_, ?_, ?_, ?_, ?_⟩
    · rw [List.length_map, hlen, combos_length]
    · rw [List.length_map, hlen, combos_length]
    · intro k hk p hp
      have hc := forall₂_countP env k p (combos tracks) rs hf
      rw [hc.1, hc.2, countP_combos tracks k p hk hp]
      exact ⟨rfl, rfl⟩
    · intro r hr
      obtain ⟨rr, hrr, rfl⟩ := List.mem_map.mp hr
      have := forall₂_mem_fields env (combos tracks) rs hf
        (fun c hc => mem_combos hc) rr hrr
      exact ⟨this.1, this.2.1⟩
    · intro r hr
      obtain ⟨rr, hrr, rfl⟩ := List.mem_map.mp hr
      have := forall₂_mem_fields env (combos tracks) rs hf
        (fun c hc => mem_combos hc) rr hrr
      exact ⟨this.2.2.1, this.2.2.2⟩

/-- Witness for C10 on a one-track run with the concrete test environment. -/
theorem C10_witness :
    rowsTest.1.length =
      kernel_sizes.length * params_cens_list.length * [trackTest].length ∧
    rowsTest.2.length =
      kernel_sizes.length * params_cens_list.length * [trackTest].length ∧
    (∀ k ∈ kernel_sizes, ∀ p ∈ params_cens_list,
      rowsTest.1.countP
        (fun r => decide (r.kernel_size = k) && decide (r.param = p)) =
        [trackTest].length ∧
      rowsTest.2.countP
        (fun r => decide (r.kernel_size = k) && decide (r.param = p)) =
        [trackTest].length) ∧
    (∀ r ∈ rowsTest.1, r.kernel_size ∈ kernel_sizes ∧
      r.param ∈ params_cens_list) ∧
    (∀ r ∈ rowsTest.2, r.kernel_size ∈ kernel_sizes ∧
      r.param ∈ params_cens_list) :=
  C10_one_row_per_combination envTest [trackTest] rowsTest.1 rowsTest.2 rfl
